import Mathlib

/-!
Verification development for the job-orchestration core of the sentiment
analysis backend (`src/backend/controllers/text.controller.js`).

The JavaScript source is shallowly embedded: each relevant JS function is
translated to an executable Lean definition.  JS numbers that carry scores
and confidences are modelled as rationals; optional JS object fields are
modelled as `Option`; JS falsiness on strings/numbers is modelled
explicitly (`jsOrStr`, `falsyStr`, `truthyNum`).  Definitions named after
`spec…` / `claimed…` follow the natural-language specification's words and
are compared against the definitions translated from the source.
-/

set_option maxHeartbeats 1000000

namespace TextController

/-- Characters matched by the JS regex class `\s` (ASCII range). -/
def isJsSpace (c : Char) : Bool :=
  c == ' ' || c == '\t' || c == '\n' || c == '\r' || c == '\x0b' || c == '\x0c'

/-- Characters matched by the JS regex class `\w`, i.e. `[A-Za-z0-9_]`. -/
def isWordChar (c : Char) : Bool :=
  c.isAlphanum || c == '_'

/-- The fixed stop-word set of `extractKeywords` (text.controller.js lines 71-77). -/
def stopWords : List String :=
  ["the", "and", "a", "an", "in", "on", "at", "to", "for", "of", "with", "by",
   "is", "are", "was", "were", "be", "been", "being", "have", "has", "had",
   "do", "does", "did", "will", "would", "should", "could", "can", "may",
   "might", "must", "this", "that", "these", "those", "i", "you", "he", "she",
   "it", "we", "they", "me", "him", "her", "us", "them"]

/-- `text.toLowerCase()` (ASCII case mapping, as relevant after `\w` filtering). -/
def lowerStr (s : String) : String :=
  String.mk (s.data.map Char.toLower)

/-- `.replace(/[^\w\s]/g, ' ')`: every character that is neither a word
character nor whitespace becomes a space. -/
def stripPunct (s : String) : String :=
  String.mk (s.data.map (fun c => if isWordChar c || isJsSpace c then c else ' '))

/-- Worker for `.split(/\s+/)`: splits at maximal whitespace runs.  The flag
records whether we are inside a whitespace run (a run contributes a single
split point). -/
def splitWsGo : List Char → List Char → Bool → List String
  | [], acc, _ => [String.mk acc.reverse]
  | c :: cs, acc, inRun =>
    if isJsSpace c then
      if inRun then splitWsGo cs acc true
      else String.mk acc.reverse :: splitWsGo cs [] true
    else splitWsGo cs (c :: acc) false

/-- `.split(/\s+/)` on a string (leading/trailing runs yield empty fields,
as in JS). -/
def splitWs (s : String) : List String :=
  splitWsGo s.data [] false

/-- The token filter of `extractKeywords` (lines 82-86): keep words of length
more than 3 that are not stop words and contain no digit. -/
def filterTokens (ws : List String) : List String :=
  ws.filter (fun w =>
    decide (w.length > 3) && !(stopWords.contains w) && !(w.data.any Char.isDigit))

/-- The value a `wordCount` object property can hold.  Normal tokens get
number counts; the tokens `constructor` and `__proto__` hit inherited,
truthy `Object.prototype` members on first read, so
`(wordCount[word] || 0) + 1` concatenates into a non-numeric string
(`str`). -/
inductive JsProp where
  | num (n : Nat)
  | str
deriving DecidableEq, Repr

/-- Own-property lookup on the insertion-ordered association list embedding
the `wordCount` object (JS objects enumerate non-integer-like string keys in
insertion order). -/
def lookupOwn : List (String × JsProp) → String → Option JsProp
  | [], _ => none
  | (x, v) :: rest, w => if x = w then some v else lookupOwn rest w

/-- Own-property write: update in place, else append (insertion order). -/
def setOwn : List (String × JsProp) → String → JsProp → List (String × JsProp)
  | [], w, v => [(w, v)]
  | (x, u) :: rest, w, v =>
    if x = w then (x, v) :: rest else (x, u) :: setOwn rest w v

/-- One step of `wordCount[word] = (wordCount[word] || 0) + 1` with JS
prototype-chain semantics.  The read falls through to `Object.prototype` for
an absent own key: after lowercasing and digit-filtering the only token
values that hit an inherited member are `constructor` (the `Object` function,
truthy, so `+ 1` yields a string) and `__proto__` (the prototype object,
likewise).  The write on `__proto__` invokes the inherited accessor's
setter, which ignores a non-object value, so no own property is ever
created for it. -/
def jsBump (l : List (String × JsProp)) (w : String) : List (String × JsProp) :=
  let newVal : JsProp :=
    match lookupOwn l w with
    | some (.num n) => .num (n + 1)
    | some .str => .str
    | none => if w = "constructor" ∨ w = "__proto__" then .str else .num 1
  if w = "__proto__" then l else setOwn l w newVal

/-- The `wordCount` object built by lines 89-92, as an association list in
insertion order. -/
def wordCounts (ws : List String) : List (String × JsProp) :=
  ws.foldl jsBump []

/-- Whether the inserted entry `pv` stops in front of `qv` under the
comparator `(a, b) => b[1] - a[1]`: for number counts this is descending
order with stability on ties; a comparison that involves a non-numeric
string value yields NaN, which the sort treats as 0, keeping the relative
order.  (For such inconsistent comparators ECMAScript leaves the overall
order implementation-defined; no theorem below depends on the order of
string-valued entries.) -/
def sortStops (qv pv : JsProp) : Bool :=
  match qv, pv with
  | .num nq, .num np => decide (nq ≤ np)
  | _, _ => true

/-- Insertion step of the stable sort performed by
`.sort((a, b) => b[1] - a[1])` (JS array sort is stable). -/
def insertDesc (p : String × JsProp) :
    List (String × JsProp) → List (String × JsProp)
  | [] => [p]
  | q :: rest => if sortStops q.2 p.2 then p :: q :: rest else q :: insertDesc p rest

/-- Stable sort of the `Object.entries(wordCount)` list by descending count. -/
def sortDesc (l : List (String × JsProp)) : List (String × JsProp) :=
  l.foldr insertDesc []

/-- Body of `extractKeywords` after its guard (lines 79-98): tokenize, filter,
count, sort by descending frequency, keep the top 5 words. -/
def keywordPipeline (text : String) : List String :=
  let toks := filterTokens (splitWs (stripPunct (lowerStr text)))
  ((sortDesc (wordCounts toks)).take 5).map Prod.fst

/-- Insertion step of the specification's ranking: stable descending order on
plain number frequencies. -/
def insertRank (p : String × Nat) : List (String × Nat) → List (String × Nat)
  | [] => [p]
  | q :: rest => if q.2 ≤ p.2 then p :: q :: rest else q :: insertRank p rest

/-- The specification's stable descending ranking by frequency. -/
def rankSort (l : List (String × Nat)) : List (String × Nat) :=
  l.foldr insertRank []

/-- A JS value as it may arrive in the dynamically typed `text` position. -/
inductive JsVal where
  | jsNull
  | jsUndefined
  | jsNum (q : ℚ)
  | jsBool (b : Bool)
  | jsStr (s : String)
deriving DecidableEq, Repr

/-- `extractKeywords` (lines 68-99).  The guard
`if (!text || typeof text !== 'string') return []` returns `[]` for every
non-string argument and for the (falsy) empty string. -/
def extractKeywords (text : JsVal) : List String :=
  match text with
  | .jsStr s => if s = "" then [] else keywordPipeline s
  | _ => []

/-- Distinct tokens in order of first occurrence (used by the specification
reading of the ranking: "ties broken by first occurrence order"). -/
def firstOccurrences (ws : List String) : List String :=
  ws.foldl (fun acc w => if w ∈ acc then acc else acc ++ [w]) []

/-- The keyword algorithm as the specification words it: lowercase, strip
punctuation, split on whitespace, drop tokens of length at most 3, tokens
containing digits and stop words, rank the remaining tokens by descending
frequency with ties broken by first occurrence, keep the top 5. -/
def keywordsSpec (text : String) : List String :=
  let toks := filterTokens (splitWs (stripPunct (lowerStr text)))
  ((rankSort ((firstOccurrences toks).map (fun w => (w, toks.count w)))).take 5).map
    Prod.fst

/-- A raw scorer record as delivered in `resultData.results`: all fields are
optional in the payload.  The `score` field may be present in a payload but is
never read by the transformer. -/
structure RawRecord where
  text : Option String
  originalText : Option String
  sentiment : Option String
  confidence : Option ℚ
  score : Option ℚ
  probabilities : Option (ℚ × ℚ)
  patternsFound : Option (List String)
deriving DecidableEq, Repr

/-- JS `o || d` for an optional string (the empty string is falsy). -/
def jsOrStr (o : Option String) (d : String) : String :=
  match o with
  | some s => if s = "" then d else s
  | none => d

/-- JS falsiness of an optional string field (`!r.sentiment`): true for a
missing field and for the empty string. -/
def falsyStr (o : Option String) : Bool :=
  match o with
  | some s => decide (s = "")
  | none => true

/-- JS truthiness of an optional numeric field (`r.confidence` as a filter):
false for a missing field and for 0. -/
def truthyNum (o : Option ℚ) : Bool :=
  match o with
  | some c => !decide (c = 0)
  | none => false

/-- One canonical Result entity as built by `transformMLResults`
(text.controller.js lines 105-119).  The two metadata scalars and the
processed-at timestamp are inlined as fields. -/
structure ResultRec where
  lineNumber : Nat
  originalText : String
  sentimentScore : ℚ
  sentimentLabel : String
  confidence : ℚ
  probabilities : ℚ × ℚ
  keywords : List String
  patternsFound : List String
  metaLength : Nat
  metaWordCount : Nat
  processedAt : String
deriving DecidableEq, Repr

/-- The sentiment distribution block (lines 122-126). -/
structure SentimentDistribution where
  positive : Nat
  neutral : Nat
  negative : Nat
deriving DecidableEq, Repr

/-- The value returned by `transformMLResults` (lines 140-146). -/
structure TransformOut where
  transformedResults : List ResultRec
  sentimentDistribution : SentimentDistribution
  averageConfidence : ℚ
  averageSentiment : ℚ
  totalProcessed : Nat
deriving DecidableEq, Repr

/-- The per-record mapping of `transformMLResults` (the arrow function of
lines 105-119).  `now` is the value of `new Date().toISOString()` at the
invocation, made an explicit argument of the embedding. -/
def transformItem (now : String) (idx : Nat) (item : RawRecord) : ResultRec :=
  { lineNumber := idx + 1
    originalText := jsOrStr item.text (jsOrStr item.originalText "")
    sentimentScore := (item.confidence.getD 0) * 100
    sentimentLabel := jsOrStr item.sentiment "neutral"
    confidence := item.confidence.getD 0
    probabilities := item.probabilities.getD (0, 0)
    keywords := extractKeywords (JsVal.jsStr (jsOrStr item.text ""))
    patternsFound := item.patternsFound.getD []
    metaLength := (jsOrStr item.text "").length
    metaWordCount :=
      ((splitWs (jsOrStr item.text "")).filter (fun w => decide (w.length > 0))).length
    processedAt := now }

/-- `transformMLResults(mlResults, jobId)` (lines 104-147).  The `jobId`
parameter is kept (it is unused by the source body); `now` is the ambient
clock value read by `new Date()`. -/
def transformMLResults (mlResults : List RawRecord) (jobId : String) (now : String) :
    TransformOut :=
  let transformedResults := mlResults.enum.map (fun p => transformItem now p.1 p.2)
  let sentimentDistribution : SentimentDistribution :=
    { positive :=
        (mlResults.filter (fun r => decide (r.sentiment = some "positive"))).length
      neutral :=
        (mlResults.filter
          (fun r => decide (r.sentiment = some "neutral") || falsyStr r.sentiment)).length
      negative :=
        (mlResults.filter (fun r => decide (r.sentiment = some "negative"))).length }
  let confidenceScores :=
    (mlResults.filter (fun r => truthyNum r.confidence)).map (fun r => r.confidence.getD 0)
  let averageConfidence : ℚ :=
    if confidenceScores.length > 0 then
      confidenceScores.foldl (· + ·) 0 / (confidenceScores.length : ℚ)
    else 0
  let averageSentiment : ℚ :=
    if transformedResults.length > 0 then
      (transformedResults.foldl (fun sum item => sum + item.sentimentScore) 0) /
        (transformedResults.length : ℚ)
    else 0
  { transformedResults := transformedResults
    sentimentDistribution := sentimentDistribution
    averageConfidence := averageConfidence
    averageSentiment := averageSentiment
    totalProcessed := transformedResults.length }

/-- Job status values (ProcessingJob schema enum). -/
inductive JobStatus where
  | pending
  | processing
  | completed
  | failed
  | cancelled
deriving DecidableEq, Repr

/-- The persisted Job record, restricted to the fields the claims are about. -/
structure Job where
  status : JobStatus
  progress : Int
  startedAt : Option Nat
  completedAt : Option Nat
  failedAt : Option Nat
  cancelledAt : Option Nat
  errorMessage : Option String
  results : List ResultRec
  totalLines : Nat
  mlEnabled : Bool
deriving DecidableEq, Repr

/-- The `findByIdAndUpdate` patch applied when background execution starts
(lines 162-166).  It is keyed on the job id only: no status condition. -/
def markProcessing (t : Nat) (j : Job) : Job :=
  { j with status := .processing, startedAt := some t, progress := 20 }

/-- The `findByIdAndUpdate` patch applied on ML success (lines 274-291).  It
is keyed on the job id only: no status condition. -/
def completionUpdate (t : Nat) (out : TransformOut) (j : Job) : Job :=
  { j with status := .completed, progress := 100, completedAt := some t,
           totalLines := out.totalProcessed, results := out.transformedResults,
           mlEnabled := true }

/-- The `findByIdAndUpdate` patch applied when the Python subprocess fails
(lines 203-208).  Keyed on the job id only. -/
def invokerFailureUpdate (t : Nat) (cause : String) (j : Job) : Job :=
  { j with status := .failed,
           errorMessage := some ("ML Processing Error: " ++ cause),
           failedAt := some t, progress := 0 }

/-- The `findByIdAndUpdate` patch applied when reading/parsing/transforming
the results fails (lines 331-336).  Keyed on the job id only. -/
def transformFailureUpdate (t : Nat) (cause : String) (j : Job) : Job :=
  { j with status := .failed,
           errorMessage := some ("Results processing error: " ++ cause),
           failedAt := some t, progress := 50 }

/-- The `findByIdAndUpdate` patch applied when setup before invocation fails
(lines 355-360).  Keyed on the job id only. -/
def setupFailureUpdate (t : Nat) (cause : String) (j : Job) : Job :=
  { j with status := .failed,
           errorMessage := some ("Setup error: " ++ cause),
           failedAt := some t, progress := 0 }

/-- `cancelJob`'s `findOneAndUpdate` (lines 766-779): the update is
conditional on the current status being `pending` or `processing`; otherwise
no document matches and the job record is untouched (`none`). -/
def cancelJobUpdate (t : Nat) (j : Job) : Option Job :=
  if j.status = .pending ∨ j.status = .processing then
    some { j with status := .cancelled, cancelledAt := some t, progress := 0,
                  errorMessage := some "Cancelled by user" }
  else none

/-- `Array.prototype.slice(start, stop)` with JS handling of negative and
out-of-range indices. -/
def jsSlice {α : Type} (l : List α) (start stop : Int) : List α :=
  let n : Int := l.length
  let s : Int := if start < 0 then max (n + start) 0 else min start n
  let e : Int := if stop < 0 then max (n + stop) 0 else min stop n
  (l.drop s.toNat).take (e - s).toNat

/-- The result-returning core of `getResults` (lines 691-706): an error when
the job is not completed, otherwise the slice
`job.results.slice((page-1)*limit, (page-1)*limit + parseInt(limit))`.
`page` and `limit` are the numeric values of the query parameters (default
1 and 50); no clamping is performed by the source. -/
def getResults (job : Job) (page limit : Int) : Except String (List ResultRec) :=
  if job.status ≠ .completed then .error "Job is not completed yet"
  else
    let skip := (page - 1) * limit
    .ok (jsSlice job.results skip (skip + limit))

/-- File-staging effect of the success path (lines 296-306): the input file
is unlinked, then the guard `if (fs.existsSync(outputPath))` runs — but `fs`
is `require('fs').promises` (line 2), which has no `existsSync`, so the call
throws a TypeError that the surrounding catch swallows, and the output file
is never deleted.  The `output` argument is kept to record that the path
never leaves the disk set. -/
def successCleanup (input output : String) (disk : Finset String) : Finset String :=
  disk.erase input

/-- File-staging effect of the subprocess-failure path (lines 210-217): only
the input file is deleted; the branch contains no output-file code at all. -/
def invokerFailureCleanup (input : String) (disk : Finset String) : Finset String :=
  disk.erase input

/-- File-staging effect of the transform-failure path (lines 338-346): as on
the success path, the input file is unlinked and then
`fs.existsSync(outputPath)` throws (`fs` is the promises API), the catch
swallows the TypeError, and the output file survives. -/
def transformFailureCleanup (input output : String) (disk : Finset String) :
    Finset String :=
  disk.erase input

/-- The score formula the specification states for a Result ("confidence×100
when confidence is present, else the raw record's own score field, else 0"). -/
def claimedScore (r : RawRecord) : ℚ :=
  match r.confidence with
  | some c => c * 100
  | none =>
    match r.score with
    | some s => s
    | none => 0

/-- The sentiment distribution as the specification words it: counts of
Results per label (the transformed label already defaults to neutral). -/
def specSentimentDistribution (results : List ResultRec) : SentimentDistribution :=
  { positive := results.countP (fun r => decide (r.sentimentLabel = "positive"))
    neutral := results.countP (fun r => decide (r.sentimentLabel = "neutral"))
    negative := results.countP (fun r => decide (r.sentimentLabel = "negative")) }

/-- The average score as the specification words it: the arithmetic mean of
the Results' scores, 0 for an empty Result list. -/
def specAverageScore (results : List ResultRec) : ℚ :=
  if results = [] then 0
  else (results.map (fun r => r.sentimentScore)).sum / (results.length : ℚ)

/-- The average confidence exactly as the claim states it: the arithmetic
mean over the raw records carrying a confidence value, 0 when none carry
one. -/
def claimedAverageConfidence (rs : List RawRecord) : ℚ :=
  let cs := rs.filterMap (fun r => r.confidence)
  if cs = [] then 0 else cs.sum / (cs.length : ℚ)

/-- The average confidence amended to what the source computes: the mean over
the raw records carrying a nonzero confidence value, 0 when none do. -/
def specAverageConfidenceNonzero (rs : List RawRecord) : ℚ :=
  let cs := (rs.filterMap (fun r => r.confidence)).filter (fun c => !decide (c = 0))
  if cs = [] then 0 else cs.sum / (cs.length : ℚ)

/-- Scrub the clock-dependent field of a Result. -/
def scrubProcessedAt (r : ResultRec) : ResultRec :=
  { r with processedAt := "" }

/-- A raw record lands in some distribution bucket exactly when this predicate
holds (the union of the three bucket predicates of lines 122-126). -/
def okSentiment (r : RawRecord) : Bool :=
  decide (r.sentiment = some "positive") ||
    (decide (r.sentiment = some "neutral") || falsyStr r.sentiment) ||
    decide (r.sentiment = some "negative")

/-- A raw record with every optional field missing. -/
def baseRaw : RawRecord :=
  { text := none, originalText := none, sentiment := none, confidence := none,
    score := none, probabilities := none, patternsFound := none }

/-- A raw record that carries only a raw `score` field. -/
def recScore42 : RawRecord :=
  { baseRaw with score := some 42 }

/-- A raw record carrying confidence 0. -/
def recConfZero : RawRecord :=
  { baseRaw with confidence := some 0 }

/-- A raw record carrying confidence 1/2. -/
def recConfHalf : RawRecord :=
  { baseRaw with confidence := some (1/2) }

/-- A raw record whose sentiment field holds the empty string. -/
def recEmptySentiment : RawRecord :=
  { baseRaw with sentiment := some "" }

/-- A raw record whose sentiment is a non-empty string outside the three
labels. -/
def recMixed : RawRecord :=
  { baseRaw with sentiment := some "mixed" }

/-- A transformer output on a one-record input, used as a concrete
completion payload. -/
def outDemo : TransformOut :=
  transformMLResults [baseRaw] "job1" "2024-05-01T00:00:00Z"

/-- A job already cancelled by the user. -/
def jobCancelled : Job :=
  { status := .cancelled, progress := 0, startedAt := some 1, completedAt := none,
    failedAt := none, cancelledAt := some 2, errorMessage := some "Cancelled by user",
    results := [], totalLines := 0, mlEnabled := true }

/-- A minimal stored Result with the given line number. -/
def mkRes (n : Nat) : ResultRec :=
  { lineNumber := n, originalText := "", sentimentScore := 0,
    sentimentLabel := "neutral", confidence := 0, probabilities := (0, 0),
    keywords := [], patternsFound := [], metaLength := 0, metaWordCount := 0,
    processedAt := "" }

/-- A completed job holding exactly 3 Results. -/
def jobThree : Job :=
  { status := .completed, progress := 100, startedAt := some 1, completedAt := some 2,
    failedAt := none, cancelledAt := none, errorMessage := none,
    results := [mkRes 1, mkRes 2, mkRes 3], totalLines := 3, mlEnabled := true }

/-! ### Helper lemmas -/

theorem map_enumFrom {α β : Type} (f : α → β) (l : List α) :
    ∀ n : Nat, (List.enumFrom n l).map (fun p => f p.2) = l.map f := by
  induction l with
  | nil => intro n; rfl
  | cons a l ih => intro n; simp [List.enumFrom, ih]

theorem countP_enumFrom {α : Type} (pr : α → Bool) (l : List α) :
    ∀ n : Nat, (List.enumFrom n l).countP (fun p => pr p.2) = l.countP pr := by
  induction l with
  | nil => intro n; rfl
  | cons a l ih => intro n; simp [List.enumFrom, List.countP_cons, ih]

theorem foldl_add_map {α : Type} (f : α → ℚ) (l : List α) :
    ∀ init : ℚ, l.foldl (fun s a => s + f a) init = init + (l.map f).sum := by
  induction l with
  | nil => intro init; simp
  | cons a l ih => intro init; simp [ih, add_assoc]

theorem countP_ext {α : Type} (p q : α → Bool) (h : ∀ a, p a = q a) (l : List α) :
    l.countP p = l.countP q := by
  induction l with
  | nil => rfl
  | cons a l ih => simp [List.countP_cons, ih, h a]

theorem append_ne_empty (p c : String) (hp : p.data ≠ []) : p ++ c ≠ "" := by
  intro h
  have hd := congrArg String.data h
  rw [String.data_append] at hd
  exact hp (List.append_eq_nil.mp hd).1

theorem transformedResults_def (rs : List RawRecord) (jobId now : String) :
    (transformMLResults rs jobId now).transformedResults =
      rs.enum.map (fun p => transformItem now p.1 p.2) := rfl

theorem transform_length (rs : List RawRecord) (jobId now : String) :
    (transformMLResults rs jobId now).transformedResults.length = rs.length := by
  rw [transformedResults_def, List.length_map, List.enum_length]

theorem transform_scores (rs : List RawRecord) (jobId now : String) :
    (transformMLResults rs jobId now).transformedResults.map
      (fun r => r.sentimentScore) = rs.map (fun r => r.confidence.getD 0 * 100) := by
  rw [transformedResults_def, List.map_map]
  exact map_enumFrom (fun r : RawRecord => r.confidence.getD 0 * 100) rs 0

theorem label_pos (o : Option String) :
    decide (jsOrStr o "neutral" = "positive") = decide (o = some "positive") := by
  cases o with
  | none => rfl
  | some s =>
    by_cases hs : s = ""
    · subst hs; rfl
    · rw [decide_eq_decide]
      simp [jsOrStr, hs]

theorem label_neu (o : Option String) :
    decide (jsOrStr o "neutral" = "neutral") =
      (decide (o = some "neutral") || falsyStr o) := by
  cases o with
  | none => rfl
  | some s =>
    by_cases hs : s = ""
    · subst hs; rfl
    · simp only [jsOrStr, if_neg hs, falsyStr, decide_eq_false hs, Bool.or_false]
      rw [decide_eq_decide]
      simp

theorem label_neg (o : Option String) :
    decide (jsOrStr o "neutral" = "negative") = decide (o = some "negative") := by
  cases o with
  | none => rfl
  | some s =>
    by_cases hs : s = ""
    · subst hs; rfl
    · rw [decide_eq_decide]
      simp [jsOrStr, hs]

theorem truthyNum_none : truthyNum none = false := rfl

theorem truthyNum_some (c : ℚ) : truthyNum (some c) = !decide (c = 0) := rfl

theorem confFilter (rs : List RawRecord) :
    (rs.filter (fun r => truthyNum r.confidence)).map (fun r => r.confidence.getD 0) =
      (rs.filterMap (fun r => r.confidence)).filter (fun c => !decide (c = 0)) := by
  induction rs with
  | nil => rfl
  | cons r rs ih =>
    cases hc : r.confidence with
    | none => simp [List.filter_cons, List.filterMap_cons, truthyNum_none, hc, ih]
    | some c =>
      by_cases h0 : c = 0
      · subst h0
        simp [List.filter_cons, List.filterMap_cons, truthyNum_some, hc, ih]
      · simp [List.filter_cons, List.filterMap_cons, truthyNum_some, hc, h0, ih]

theorem averageSentiment_def (rs : List RawRecord) (jobId now : String) :
    (transformMLResults rs jobId now).averageSentiment =
      (if (rs.enum.map (fun p => transformItem now p.1 p.2)).length > 0 then
        ((rs.enum.map (fun p => transformItem now p.1 p.2)).foldl
            (fun sum item => sum + item.sentimentScore) 0) /
          ((rs.enum.map (fun p => transformItem now p.1 p.2)).length : ℚ)
      else 0) := rfl

theorem averageConfidence_def (rs : List RawRecord) (jobId now : String) :
    (transformMLResults rs jobId now).averageConfidence =
      (if ((rs.filter (fun r => truthyNum r.confidence)).map
            (fun r => r.confidence.getD 0)).length > 0 then
        ((rs.filter (fun r => truthyNum r.confidence)).map
            (fun r => r.confidence.getD 0)).foldl (· + ·) 0 /
          (((rs.filter (fun r => truthyNum r.confidence)).map
            (fun r => r.confidence.getD 0)).length : ℚ)
      else 0) := rfl

theorem sentimentDistribution_def (rs : List RawRecord) (jobId now : String) :
    (transformMLResults rs jobId now).sentimentDistribution =
      { positive := (rs.filter (fun r => decide (r.sentiment = some "positive"))).length
        neutral := (rs.filter
          (fun r => decide (r.sentiment = some "neutral") || falsyStr r.sentiment)).length
        negative :=
          (rs.filter (fun r => decide (r.sentiment = some "negative"))).length } := rfl

theorem countP_enum {α : Type} (pr : α → Bool) (l : List α) :
    l.enum.countP (fun p => pr p.2) = l.countP pr :=
  countP_enumFrom pr l 0

theorem countP_transform (pr : ResultRec → Bool) (f : RawRecord → Bool)
    (h : ∀ now i r, pr (transformItem now i r) = f r) (rs : List RawRecord)
    (jobId now : String) :
    (transformMLResults rs jobId now).transformedResults.countP pr = rs.countP f := by
  rw [transformedResults_def, List.countP_map]
  have hc : (pr ∘ fun p : ℕ × RawRecord => transformItem now p.1 p.2) =
      fun p : ℕ × RawRecord => f p.2 := by
    funext p
    exact h now p.1 p.2
  rw [hc]
  exact countP_enumFrom f rs 0

theorem transform_distribution (rs : List RawRecord) (jobId now : String) :
    (transformMLResults rs jobId now).sentimentDistribution =
      specSentimentDistribution (transformMLResults rs jobId now).transformedResults := by
  rw [sentimentDistribution_def, specSentimentDistribution]
  congr 1
  · rw [← List.countP_eq_length_filter]
    exact (countP_transform _ _ (fun now i r => label_pos r.sentiment) rs jobId now).symm
  · rw [← List.countP_eq_length_filter]
    exact (countP_transform _ _ (fun now i r => label_neu r.sentiment) rs jobId now).symm
  · rw [← List.countP_eq_length_filter]
    exact (countP_transform _ _ (fun now i r => label_neg r.sentiment) rs jobId now).symm

theorem dist_sum (rs : List RawRecord) (jobId now : String) :
    (transformMLResults rs jobId now).sentimentDistribution.positive +
      (transformMLResults rs jobId now).sentimentDistribution.neutral +
      (transformMLResults rs jobId now).sentimentDistribution.negative =
      rs.countP okSentiment := by
  rw [sentimentDistribution_def]
  simp only [← List.countP_eq_length_filter]
  induction rs with
  | nil => rfl
  | cons r rs ih =>
    simp only [List.countP_cons]
    have hr : (if decide (r.sentiment = some "positive") = true then 1 else 0) +
        (if (decide (r.sentiment = some "neutral") || falsyStr r.sentiment) = true
          then 1 else 0) +
        (if decide (r.sentiment = some "negative") = true then 1 else 0) =
        (if okSentiment r = true then 1 else 0) := by
      cases hs : r.sentiment with
      | none => simp [okSentiment, falsyStr, hs]
      | some s =>
        by_cases h1 : s = "positive" <;> by_cases h2 : s = "neutral" <;>
          by_cases h3 : s = "negative" <;> by_cases h4 : s = "" <;>
          simp_all [okSentiment, falsyStr]
    omega

theorem okSentiment_iff (r : RawRecord) :
    okSentiment r = true ↔
      (r.sentiment = some "positive" ∨ r.sentiment = some "neutral" ∨
        r.sentiment = some "negative" ∨ r.sentiment = none ∨
        r.sentiment = some "") := by
  cases hs : r.sentiment with
  | none => simp [okSentiment, falsyStr, hs]
  | some s =>
    simp only [okSentiment, falsyStr, hs, Bool.or_eq_true, decide_eq_true_eq,
      Option.some.injEq, reduceCtorEq]
    constructor
    · rintro ((h | h | h) | h) <;> simp [h]
    · rintro (h | h | h | h | h)
      · simp [h]
      · simp [h]
      · simp [h]
      · exact h.elim
      · simp [h]

theorem avg_if_eq (l : List ResultRec) :
    (if l.length > 0 then
        (l.foldl (fun sum item => sum + item.sentimentScore) 0) / (l.length : ℚ)
      else 0) = specAverageScore l := by
  rw [specAverageScore, foldl_add_map (fun r : ResultRec => r.sentimentScore) l 0,
    zero_add]
  by_cases hl : l = []
  · subst hl; simp
  · rw [if_pos (List.length_pos.mpr hl), if_neg hl]

theorem transform_avgSentiment (rs : List RawRecord) (jobId now : String) :
    (transformMLResults rs jobId now).averageSentiment =
      specAverageScore (transformMLResults rs jobId now).transformedResults := by
  rw [averageSentiment_def]
  exact avg_if_eq _

theorem transform_avgConfidence (rs : List RawRecord) (jobId now : String) :
    (transformMLResults rs jobId now).averageConfidence =
      specAverageConfidenceNonzero rs := by
  rw [averageConfidence_def, confFilter]
  simp only [specAverageConfidenceNonzero]
  set cs := (rs.filterMap (fun r => r.confidence)).filter (fun c => !decide (c = 0))
    with hcs
  rw [show cs.foldl (· + ·) 0 = cs.sum from (List.sum_eq_foldl).symm]
  by_cases hl : cs = []
  · rw [hl]; simp
  · rw [if_pos (List.length_pos.mpr hl), if_neg hl]

theorem firstOcc_append (ws : List String) (w : String) :
    firstOccurrences (ws ++ [w]) =
      if w ∈ firstOccurrences ws then firstOccurrences ws
      else firstOccurrences ws ++ [w] := by
  simp [firstOccurrences, List.foldl_append]

theorem mem_firstOcc (x : String) (ws : List String) :
    x ∈ firstOccurrences ws ↔ x ∈ ws := by
  induction ws using List.reverseRecOn with
  | nil => rfl
  | append_singleton ws w ih =>
    rw [firstOcc_append]
    by_cases h : w ∈ firstOccurrences ws
    · rw [if_pos h]
      rw [ih]
      simp only [List.mem_append, List.mem_singleton]
      constructor
      · exact fun hx => Or.inl hx
      · rintro (hx | rfl)
        · exact hx
        · exact ih.mp h
    · rw [if_neg h]
      simp [ih]

theorem nodup_firstOcc (ws : List String) : (firstOccurrences ws).Nodup := by
  induction ws using List.reverseRecOn with
  | nil => exact List.nodup_nil
  | append_singleton ws w ih =>
    rw [firstOcc_append]
    by_cases h : w ∈ firstOccurrences ws
    · rw [if_pos h]; exact ih
    · rw [if_neg h]
      simp [List.nodup_append, ih, h]

theorem lookupOwn_map (l : List String) (f : String → Nat) (w : String) :
    lookupOwn (l.map fun x => (x, JsProp.num (f x))) w =
      if w ∈ l then some (JsProp.num (f w)) else none := by
  induction l with
  | nil => simp [lookupOwn]
  | cons x l ih =>
    by_cases hx : x = w
    · subst hx
      simp [lookupOwn]
    · rw [List.map_cons, lookupOwn, if_neg hx, ih]
      have hmem : (w ∈ x :: l) ↔ w ∈ l := by
        rw [List.mem_cons]
        exact or_iff_right (fun h => hx h.symm)
      simp [hmem]

theorem setOwn_map (l : List String) (f : String → Nat) (w : String) (v : JsProp)
    (hnd : l.Nodup) :
    setOwn (l.map fun x => (x, JsProp.num (f x))) w v =
      if w ∈ l then l.map (fun x => if x = w then (x, v) else (x, JsProp.num (f x)))
      else (l.map fun x => (x, JsProp.num (f x))) ++ [(w, v)] := by
  induction l with
  | nil => simp [setOwn]
  | cons x l ih =>
    have hx : x ∉ l := (List.nodup_cons.mp hnd).1
    have hl : l.Nodup := (List.nodup_cons.mp hnd).2
    by_cases hxw : x = w
    · subst hxw
      rw [List.map_cons, setOwn, if_pos rfl, if_pos (List.mem_cons_self x l),
        List.map_cons, if_pos rfl]
      congr 1
      apply List.map_congr_left
      intro y hy
      rw [if_neg (fun h : y = x => hx (h ▸ hy))]
    · rw [List.map_cons, setOwn, if_neg hxw, ih hl]
      by_cases hwl : w ∈ l
      · rw [if_pos hwl, if_pos (List.mem_cons_of_mem x hwl), List.map_cons,
          if_neg hxw]
      · rw [if_neg hwl, if_neg (fun h => by
          rcases List.mem_cons.mp h with h | h
          · exact hxw h.symm
          · exact hwl h)]
        rfl

theorem jsBump_map (l : List String) (f : String → Nat) (w : String)
    (hnd : l.Nodup) (hw1 : w ≠ "constructor") (hw2 : w ≠ "__proto__") :
    jsBump (l.map fun x => (x, JsProp.num (f x))) w =
      if w ∈ l then l.map (fun x => (x, JsProp.num (if x = w then f x + 1 else f x)))
      else (l.map fun x => (x, JsProp.num (f x))) ++ [(w, JsProp.num 1)] := by
  simp only [jsBump, lookupOwn_map, if_neg hw2]
  by_cases hm : w ∈ l
  · rw [if_pos hm, if_pos hm]
    rw [setOwn_map _ _ _ _ hnd, if_pos hm]
    apply List.map_congr_left
    intro x hx
    by_cases hxw : x = w
    · subst hxw
      rw [if_pos rfl, if_pos rfl]
    · rw [if_neg hxw, if_neg hxw]
  · rw [if_neg hm, if_neg hm,
      if_neg (fun h : w = "constructor" ∨ w = "__proto__" => by
        rcases h with h | h
        · exact hw1 h
        · exact hw2 h)]
    rw [setOwn_map _ _ _ _ hnd, if_neg hm]

theorem wordCounts_eq (ws : List String)
    (h1 : "constructor" ∉ ws) (h2 : "__proto__" ∉ ws) :
    wordCounts ws =
      (firstOccurrences ws).map (fun w => (w, JsProp.num (ws.count w))) := by
  induction ws using List.reverseRecOn with
  | nil => rfl
  | append_singleton ws w ih =>
    have h1w : "constructor" ∉ ws := fun h => h1 (List.mem_append_left _ h)
    have h2w : "__proto__" ∉ ws := fun h => h2 (List.mem_append_left _ h)
    have hw1 : w ≠ "constructor" := fun h =>
      h1 (List.mem_append_right _ (by simp [h]))
    have hw2 : w ≠ "__proto__" := fun h =>
      h2 (List.mem_append_right _ (by simp [h]))
    have hfold : wordCounts (ws ++ [w]) = jsBump (wordCounts ws) w := by
      simp [wordCounts, List.foldl_append]
    rw [hfold, ih h1w h2w,
      jsBump_map _ _ _ (nodup_firstOcc ws) hw1 hw2, firstOcc_append]
    by_cases hmem : w ∈ firstOccurrences ws
    · rw [if_pos hmem, if_pos hmem]
      apply List.map_congr_left
      intro x hx
      rw [List.count_append]
      by_cases hxw : x = w
      · subst hxw
        simp [List.count_singleton]
      · have hwx : ¬ ((w == x) = true) := by
          simp only [beq_iff_eq]
          exact fun h => hxw h.symm
        simp [List.count_singleton, hwx, hxw]
    · have hwnot : w ∉ ws := fun h => hmem ((mem_firstOcc w ws).mpr h)
      rw [if_neg hmem, if_neg hmem, List.map_append]
      congr 1
      · apply List.map_congr_left
        intro x hx
        have hwx : ¬ ((w == x) = true) := by
          simp only [beq_iff_eq]
          intro h
          exact hmem (h ▸ hx)
        rw [List.count_append]
        simp [List.count_singleton, hwx]
      · rw [List.map_singleton, List.count_append]
        simp [List.count_singleton, List.count_eq_zero.mpr hwnot]

theorem insertDesc_map (p : String × Nat) (l : List (String × Nat)) :
    insertDesc (p.1, JsProp.num p.2) (l.map fun q => (q.1, JsProp.num q.2)) =
      (insertRank p l).map fun q => (q.1, JsProp.num q.2) := by
  induction l with
  | nil => rfl
  | cons q l ih =>
    rw [List.map_cons, insertDesc, insertRank]
    by_cases h : q.2 ≤ p.2
    · simp [sortStops, h]
    · simp [sortStops, h, ih]

theorem sortDesc_map (l : List (String × Nat)) :
    sortDesc (l.map fun q => (q.1, JsProp.num q.2)) =
      (rankSort l).map fun q => (q.1, JsProp.num q.2) := by
  induction l with
  | nil => rfl
  | cons p l ih =>
    rw [List.map_cons]
    show insertDesc (p.1, JsProp.num p.2) (sortDesc (l.map _)) = _
    rw [ih]
    exact insertDesc_map p (rankSort l)

/-! ### Claim theorems -/

/-- C7: each of the three failure exit paths of background execution sets
status `failed`, sets `failedAt`, stores a non-empty `errorMessage` carrying
the underlying cause behind a class-specific prefix, and sets progress to 0
(subprocess failure), 50 (transform/parse failure) and 0 (setup failure);
the setup prefix is distinguishing: no invoker- or transform-failure message
starts with it. -/
theorem C7_failure_updates (j : Job) (t : Nat) (cause : String) :
    ((invokerFailureUpdate t cause j).status = .failed ∧
      (invokerFailureUpdate t cause j).failedAt = some t ∧
      (invokerFailureUpdate t cause j).progress = 0 ∧
      (invokerFailureUpdate t cause j).errorMessage =
        some ("ML Processing Error: " ++ cause) ∧
      "ML Processing Error: " ++ cause ≠ "") ∧
    ((transformFailureUpdate t cause j).status = .failed ∧
      (transformFailureUpdate t cause j).failedAt = some t ∧
      (transformFailureUpdate t cause j).progress = 50 ∧
      (transformFailureUpdate t cause j).errorMessage =
        some ("Results processing error: " ++ cause) ∧
      "Results processing error: " ++ cause ≠ "") ∧
    ((setupFailureUpdate t cause j).status = .failed ∧
      (setupFailureUpdate t cause j).failedAt = some t ∧
      (setupFailureUpdate t cause j).progress = 0 ∧
      (setupFailureUpdate t cause j).errorMessage =
        some ("Setup error: " ++ cause) ∧
      "Setup error: " ++ cause ≠ "" ∧
      (∀ c2 rest : String,
        "ML Processing Error: " ++ c2 ≠ "Setup error: " ++ rest ∧
        "Results processing error: " ++ c2 ≠ "Setup error: " ++ rest)) := by
  refine ⟨⟨rfl, rfl, rfl, rfl, append_ne_empty _ _ (by decide)⟩,
    ⟨rfl, rfl, rfl, rfl, append_ne_empty _ _ (by decide)⟩,
    rfl, rfl, rfl, rfl, append_ne_empty _ _ (by decide), ?_⟩
  intro c2 rest
  constructor <;>
  · intro h
    have hd := congrArg String.data h
    rw [String.data_append, String.data_append] at hd
    have hS : ("Setup error: ").data = 'S' :: ("etup error: ").data := by decide
    rw [hS] at hd
    first
      | (have hM : ("ML Processing Error: ").data =
            'M' :: ("L Processing Error: ").data := by decide
         rw [hM] at hd
         simp at hd)
      | (have hR : ("Results processing error: ").data =
            'R' :: ("esults processing error: ").data := by decide
         rw [hR] at hd
         simp at hd)

/-- C8 counterexample: an existing output staging file survives both the
success exit path (where `fs.existsSync` on the promises API throws and the
catch swallows it) and the subprocess-failure exit path (which has no
output-file code), contradicting "the output staging file is deleted if it
exists" on every exit path; the input file is deleted. -/
theorem C8_counterexample :
    "outputA" ∈ ({"inputA", "outputA"} : Finset String) ∧
    "outputA" ∈ successCleanup "inputA" "outputA" {"inputA", "outputA"} ∧
    "outputA" ∈ invokerFailureCleanup "inputA" {"inputA", "outputA"} ∧
    "inputA" ∉ successCleanup "inputA" "outputA" {"inputA", "outputA"} := by
  refine ⟨by decide, by decide, by decide, by decide⟩

/-- C8 amended: every exit path of background execution deletes the input
staging file, and none of them ever deletes the output staging file — the
success and transform-failure branches reach `if (fs.existsSync(outputPath))`
on `require('fs').promises`, which has no `existsSync`, so the check throws
a TypeError that the surrounding catch swallows, while the
subprocess-failure branch contains no output-deletion code at all: an output
file distinct from the input path always survives. -/
theorem C8_cleanup (input output : String) (disk : Finset String) :
    input ∉ successCleanup input output disk ∧
    input ∉ transformFailureCleanup input output disk ∧
    input ∉ invokerFailureCleanup input disk ∧
    (output ∈ disk → output ≠ input →
      output ∈ successCleanup input output disk ∧
      output ∈ transformFailureCleanup input output disk ∧
      output ∈ invokerFailureCleanup input disk) := by
  refine ⟨Finset.not_mem_erase _ _, Finset.not_mem_erase _ _,
    Finset.not_mem_erase _ _, ?_⟩
  intro hmem hne
  refine ⟨?_, ?_, ?_⟩ <;>
    simpa [successCleanup, transformFailureCleanup, invokerFailureCleanup,
      Finset.mem_erase] using ⟨hne, hmem⟩

theorem C8_cleanup_witness :
    "outB" ∈ successCleanup "inA" "outB" ({"inA", "outB"} : Finset String) :=
  ((C8_cleanup "inA" "outB" {"inA", "outB"}).2.2.2 (by decide) (by decide)).1

/-- C1 counterexample: the completion update of background execution is a
plain `findByIdAndUpdate` keyed on the job id only, so applied to an
already-cancelled job it moves the job out of its terminal state to
`completed` and persists Results. -/
theorem C1_counterexample :
    jobCancelled.status = .cancelled ∧
    (completionUpdate 5 outDemo jobCancelled).status = .completed ∧
    (completionUpdate 5 outDemo jobCancelled).results ≠ [] := by
  refine ⟨rfl, rfl, by decide⟩

/-- C1 amended: `cancelJob`'s update is the only conditional one — it never
touches a job in a terminal state — while the completion and failure updates
at the end of background execution carry no status condition, so a job
cancelled while processing is overwritten to `completed` (with persisted
Results) or `failed` when background execution finishes. -/
theorem C1_terminal_behavior :
    (∀ (j : Job) (t : Nat),
        j.status = .completed ∨ j.status = .failed ∨ j.status = .cancelled →
        cancelJobUpdate t j = none) ∧
    (∀ (j : Job) (t : Nat) (out : TransformOut),
        j.status = .cancelled →
        (completionUpdate t out j).status = .completed ∧
        (completionUpdate t out j).results = out.transformedResults) ∧
    (∀ (j : Job) (t : Nat) (cause : String),
        j.status = .cancelled →
        (invokerFailureUpdate t cause j).status = .failed ∧
        (transformFailureUpdate t cause j).status = .failed) := by
  refine ⟨?_, ?_, ?_⟩
  · intro j t h
    unfold cancelJobUpdate
    rw [if_neg]
    rcases h with h | h | h <;> simp [h]
  · intro j t out _
    exact ⟨rfl, rfl⟩
  · intro j t cause _
    exact ⟨rfl, rfl⟩

theorem C1_terminal_behavior_witness :
    cancelJobUpdate 9 jobCancelled = none ∧
    (completionUpdate 9 outDemo jobCancelled).status = .completed :=
  ⟨C1_terminal_behavior.1 jobCancelled 9 (Or.inr (Or.inr rfl)),
   (C1_terminal_behavior.2.1 jobCancelled 9 outDemo rfl).1⟩

/-- C6 counterexample: `page` is not clamped to a positive integer — for a
completed job with 3 Results, `page = 0` yields an empty page while the
clamped request `page = 1` yields all 3 Results, so the two differ. -/
theorem C6_counterexample :
    getResults jobThree 0 50 = .ok [] ∧
    getResults jobThree 1 50 = .ok [mkRes 1, mkRes 2, mkRes 3] ∧
    getResults jobThree 0 50 ≠ getResults jobThree 1 50 := by
  refine ⟨rfl, rfl, ?_⟩
  intro h
  rw [show getResults jobThree 0 50 = Except.ok [] from rfl,
      show getResults jobThree 1 50 = Except.ok [mkRes 1, mkRes 2, mkRes 3] from rfl]
    at h
  simp at h

/-- C6 amended: pagination is offset-based and unclamped; for every completed
job and positive page/pageSize whose offset reaches past the stored Results,
the result is an empty slice and not an error, and the two concrete
boundary examples of the claim hold. -/
theorem C6_pagination :
    (∀ (job : Job) (page limit : Int),
        job.status = .completed → 1 ≤ page → 0 ≤ limit →
        (job.results.length : Int) ≤ (page - 1) * limit →
        getResults job page limit = .ok []) ∧
    getResults jobThree 2 2 = .ok [mkRes 3] ∧
    getResults jobThree 5 2 = .ok [] := by
  refine ⟨?_, rfl, rfl⟩
  intro job page limit hst hp hl hlen
  unfold getResults
  rw [if_neg (by simp [hst])]
  have hskip : 0 ≤ (page - 1) * limit := mul_nonneg (by omega) hl
  simp only [jsSlice]
  rw [if_neg (not_lt.mpr hskip), min_eq_right hlen, Int.toNat_natCast,
    List.drop_length, List.take_nil]

theorem C6_pagination_witness :
    getResults jobThree 7 2 = .ok [] :=
  (C6_pagination.1 jobThree 7 2 rfl (by decide) (by decide) (by decide))

/-- C9: `extractKeywords` is total at its boundary — every non-string
argument yields the empty list — and a raw record with a missing `text`
field flows through Transform with an empty keyword set. -/
theorem C9_keyword_totality :
    (∀ v : JsVal, (∀ s, v ≠ JsVal.jsStr s) → extractKeywords v = []) ∧
    (∀ (r : RawRecord) (jobId now : String), r.text = none →
        (transformMLResults [r] jobId now).transformedResults.map
          (fun x => x.keywords) = [[]]) := by
  constructor
  · intro v hv
    cases v with
    | jsNull => rfl
    | jsUndefined => rfl
    | jsNum q => rfl
    | jsBool b => rfl
    | jsStr s => exact absurd rfl (hv s)
  · intro r jobId now h
    simp [transformMLResults, transformItem, List.enum, List.enumFrom, h, jsOrStr,
      extractKeywords]

theorem C9_keyword_totality_witness :
    extractKeywords JsVal.jsNull = [] ∧
    (transformMLResults [baseRaw] "job1" "now1").transformedResults.map
      (fun x => x.keywords) = [[]] :=
  ⟨C9_keyword_totality.1 JsVal.jsNull (fun s h => JsVal.noConfusion h),
   C9_keyword_totality.2 baseRaw "job1" "now1" rfl⟩

/-- C2 counterexample: a raw record carrying no confidence but its own score
field 42 is transformed to score 0 — the raw score field is never consulted,
contradicting the claimed fallback. -/
theorem C2_counterexample :
    (transformMLResults [recScore42] "job1" "now1").transformedResults.map
      (fun r => r.sentimentScore) = [0] ∧
    claimedScore recScore42 = 42 ∧
    (transformMLResults [recScore42] "job1" "now1").transformedResults.map
      (fun r => r.sentimentScore) ≠ [claimedScore recScore42] := by
  have h1 : (transformMLResults [recScore42] "job1" "now1").transformedResults.map
      (fun r => r.sentimentScore) = [0] := by
    simp [transformMLResults, transformItem, recScore42, baseRaw, List.enum,
      List.enumFrom]
  have h2 : claimedScore recScore42 = 42 := rfl
  refine ⟨h1, h2, ?_⟩
  rw [h1, h2]
  intro h
  simp at h

/-- C2 amended: each Result's score is confidence×100 when the raw record
carries a confidence (so 0 when the confidence is 0 or absent); the raw
record's own score field is never consulted — changing it leaves the whole
transformer output unchanged. -/
theorem C2_score_formula :
    (∀ (rs : List RawRecord) (jobId now : String),
        (transformMLResults rs jobId now).transformedResults.map
          (fun r => r.sentimentScore) =
          rs.map (fun r => r.confidence.getD 0 * 100)) ∧
    (∀ (r : RawRecord) (q : Option ℚ) (jobId now : String),
        transformMLResults [{ r with score := q }] jobId now =
          transformMLResults [r] jobId now) := by
  refine ⟨fun rs jobId now => transform_scores rs jobId now,
    fun r q jobId now => ?_⟩
  have e1 : (transformMLResults [{ r with score := q }] jobId now).transformedResults =
      (transformMLResults [r] jobId now).transformedResults := by
    rw [transformedResults_def, transformedResults_def]
    simp [List.enum, List.enumFrom, transformItem]
  have e2 : (transformMLResults [{ r with score := q }] jobId now).sentimentDistribution =
      (transformMLResults [r] jobId now).sentimentDistribution := by
    rw [sentimentDistribution_def, sentimentDistribution_def]
    congr 1 <;>
      simp [List.filter_singleton, Bool.cond_eq_ite, apply_ite List.length]
  have e3 : (transformMLResults [{ r with score := q }] jobId now).averageConfidence =
      (transformMLResults [r] jobId now).averageConfidence := by
    rw [averageConfidence_def, averageConfidence_def]
    simp only [List.filter_singleton]
    by_cases ht : truthyNum r.confidence = true <;> simp [ht]
  have e4 : (transformMLResults [{ r with score := q }] jobId now).averageSentiment =
      (transformMLResults [r] jobId now).averageSentiment := by
    rw [averageSentiment_def, averageSentiment_def]
    simp [List.enum, List.enumFrom, transformItem]
  have e5 : (transformMLResults [{ r with score := q }] jobId now).totalProcessed =
      (transformMLResults [r] jobId now).totalProcessed := rfl
  rw [show transformMLResults [{ r with score := q }] jobId now =
        TransformOut.mk
          (transformMLResults [{ r with score := q }] jobId now).transformedResults
          (transformMLResults [{ r with score := q }] jobId now).sentimentDistribution
          (transformMLResults [{ r with score := q }] jobId now).averageConfidence
          (transformMLResults [{ r with score := q }] jobId now).averageSentiment
          (transformMLResults [{ r with score := q }] jobId now).totalProcessed
      from rfl,
    show transformMLResults [r] jobId now =
        TransformOut.mk
          (transformMLResults [r] jobId now).transformedResults
          (transformMLResults [r] jobId now).sentimentDistribution
          (transformMLResults [r] jobId now).averageConfidence
          (transformMLResults [r] jobId now).averageSentiment
          (transformMLResults [r] jobId now).totalProcessed
      from rfl]
  rw [e1, e2, e3, e4, e5]

/-- C3 counterexample: `Transform` reads the ambient clock for each Result's
`metadata.processedAt`, so two invocations on identical raw input (at
different instants) yield different Results. -/
theorem C3_counterexample :
    transformMLResults [baseRaw] "job1" "2024-01-01" ≠
      transformMLResults [baseRaw] "job1" "2024-01-02" := by
  intro h
  have hp := congrArg
    (fun o : TransformOut => o.transformedResults.map (fun r => r.processedAt)) h
  simp only [transformedResults_def] at hp
  simp [List.enum, List.enumFrom, transformItem] at hp

/-- C3 amended: `Transform` is deterministic given identical input and an
identical clock reading; everything except each Result's
`metadata.processedAt` — all Statistics and all other Result fields —
depends only on the raw input, while `processedAt` records the invocation
instant. -/
theorem C3_determinism (ms : List RawRecord) (jobId t1 t2 : String) :
    (transformMLResults ms jobId t1).transformedResults.map scrubProcessedAt =
      (transformMLResults ms jobId t2).transformedResults.map scrubProcessedAt ∧
    (transformMLResults ms jobId t1).sentimentDistribution =
      (transformMLResults ms jobId t2).sentimentDistribution ∧
    (transformMLResults ms jobId t1).averageConfidence =
      (transformMLResults ms jobId t2).averageConfidence ∧
    (transformMLResults ms jobId t1).averageSentiment =
      (transformMLResults ms jobId t2).averageSentiment ∧
    (transformMLResults ms jobId t1).totalProcessed =
      (transformMLResults ms jobId t2).totalProcessed := by
  refine ⟨?_, rfl, rfl, ?_, ?_⟩
  · rw [transformedResults_def, transformedResults_def, List.map_map, List.map_map]
    apply List.map_congr_left
    intro p _
    rfl
  · rw [averageSentiment_def, averageSentiment_def]
    simp only [List.foldl_map, List.length_map]
    have hf : (fun (x : ℚ) (y : ℕ × RawRecord) =>
          x + (transformItem t1 y.1 y.2).sentimentScore) =
        fun (x : ℚ) (y : ℕ × RawRecord) =>
          x + (transformItem t2 y.1 y.2).sentimentScore := by
      funext x y
      rfl
    rw [hf]
  · rw [show (transformMLResults ms jobId t1).totalProcessed =
          (transformMLResults ms jobId t1).transformedResults.length from rfl,
        show (transformMLResults ms jobId t2).totalProcessed =
          (transformMLResults ms jobId t2).transformedResults.length from rfl,
        transform_length, transform_length]

/-- C4 counterexample: a raw record may carry the legal confidence value 0,
which the source's truthiness filter drops from the average — for records
carrying confidences 0 and 1/2 the source reports 1/2 while the claimed
"mean over the Results carrying a confidence value" is 1/4. -/
theorem C4_counterexample :
    (transformMLResults [recConfZero, recConfHalf] "job1" "now1").averageConfidence =
      1 / 2 ∧
    claimedAverageConfidence [recConfZero, recConfHalf] = 1 / 4 ∧
    (transformMLResults [recConfZero, recConfHalf] "job1" "now1").averageConfidence ≠
      claimedAverageConfidence [recConfZero, recConfHalf] := by
  have h1 : (transformMLResults [recConfZero, recConfHalf] "job1"
      "now1").averageConfidence = 1 / 2 := by
    rw [averageConfidence_def]
    norm_num [recConfZero, recConfHalf, baseRaw, truthyNum_some, List.filter_cons,
      List.filter_nil]
  have h2 : claimedAverageConfidence [recConfZero, recConfHalf] = 1 / 4 := by
    norm_num [claimedAverageConfidence, recConfZero, recConfHalf, baseRaw,
      List.filterMap_cons]
    exact List.cons_ne_nil _ _
  refine ⟨h1, h2, ?_⟩
  rw [h1, h2]
  norm_num

/-- C4 amended: the sentiment distribution equals the per-label counts of the
Results (missing labels counted as neutral), the average score equals the
arithmetic mean of the Results' scores (0 when empty), and the average
confidence equals the mean over the raw records carrying a nonzero
confidence value (0 when none do). -/
theorem C4_statistics (rs : List RawRecord) (jobId now : String) :
    (transformMLResults rs jobId now).sentimentDistribution =
      specSentimentDistribution (transformMLResults rs jobId now).transformedResults ∧
    (transformMLResults rs jobId now).averageSentiment =
      specAverageScore (transformMLResults rs jobId now).transformedResults ∧
    (transformMLResults rs jobId now).averageConfidence =
      specAverageConfidenceNonzero rs :=
  ⟨transform_distribution rs jobId now, transform_avgSentiment rs jobId now,
   transform_avgConfidence rs jobId now⟩

/-- C10 counterexample: a raw record whose sentiment field holds the empty
string is counted in the neutral bucket, so the bucket sum equals the number
of records even though that sentiment is neither one of the three labels nor
absent — the claimed "exactly when" equivalence fails. -/
theorem C10_counterexample :
    ((transformMLResults [recEmptySentiment] "job1"
          "now1").sentimentDistribution.positive +
        (transformMLResults [recEmptySentiment] "job1"
          "now1").sentimentDistribution.neutral +
        (transformMLResults [recEmptySentiment] "job1"
          "now1").sentimentDistribution.negative =
        ([recEmptySentiment] : List RawRecord).length) ∧
    ¬ (∀ r ∈ ([recEmptySentiment] : List RawRecord),
        r.sentiment = some "positive" ∨ r.sentiment = some "neutral" ∨
          r.sentiment = some "negative" ∨ r.sentiment = none) := by
  constructor
  · rfl
  · intro h
    rcases h recEmptySentiment (by simp) with h | h | h | h <;>
      simp [recEmptySentiment, baseRaw] at h

/-- C10 amended: the bucket sum equals the number of raw records exactly when
every record's sentiment is one of the three labels, absent, or the (falsy)
empty string, and is never larger; a record with a non-empty sentiment
outside the three labels is counted in none of the buckets. -/
theorem C10_distribution_sum (rs : List RawRecord) (jobId now : String) :
    ((transformMLResults rs jobId now).sentimentDistribution.positive +
        (transformMLResults rs jobId now).sentimentDistribution.neutral +
        (transformMLResults rs jobId now).sentimentDistribution.negative =
        rs.length ↔
      ∀ r ∈ rs, r.sentiment = some "positive" ∨ r.sentiment = some "neutral" ∨
        r.sentiment = some "negative" ∨ r.sentiment = none ∨
        r.sentiment = some "") ∧
    (transformMLResults rs jobId now).sentimentDistribution.positive +
        (transformMLResults rs jobId now).sentimentDistribution.neutral +
        (transformMLResults rs jobId now).sentimentDistribution.negative ≤
      rs.length ∧
    (∀ (r : RawRecord) (s : String), r.sentiment = some s → s ≠ "" →
      s ∉ (["positive", "neutral", "negative"] : List String) →
      (transformMLResults [r] jobId now).sentimentDistribution = ⟨0, 0, 0⟩) := by
  refine ⟨?_, ?_, ?_⟩
  · rw [dist_sum, List.countP_eq_length]
    simp only [okSentiment_iff]
  · rw [dist_sum]
    exact List.countP_le_length _
  · intro r s hs hne hnotin
    have h1 : s ≠ "positive" := fun h => hnotin (by simp [h])
    have h2 : s ≠ "neutral" := fun h => hnotin (by simp [h])
    have h3 : s ≠ "negative" := fun h => hnotin (by simp [h])
    rw [sentimentDistribution_def]
    simp [List.filter_cons, hs, h1, h2, h3, hne, falsyStr]

/-- C5 counterexample: the `wordCount` object is a plain `{}` whose reads
fall through to `Object.prototype`.  The token `__proto__` passes every
filter, but its assignment hits the inherited `__proto__` accessor whose
setter discards a non-object value, so the key never appears in
`Object.entries` and the program returns no keyword for the input
`"__proto__"` — while the claimed frequency pipeline returns
`["__proto__"]`. -/
theorem C5_counterexample :
    extractKeywords (JsVal.jsStr "__proto__") = [] ∧
    keywordsSpec "__proto__" = ["__proto__"] ∧
    extractKeywords (JsVal.jsStr "__proto__") ≠ keywordsSpec "__proto__" := by
  refine ⟨by decide, by decide, by decide⟩

/-- C5 amended: for every input text none of whose filtered tokens is
`constructor` or `__proto__` — the two lowercase names that collide with
inherited `Object.prototype` members and corrupt the object-based counting —
the extracted keywords are exactly those of the specification's algorithm:
lowercase, strip punctuation, split on whitespace, drop tokens of length at
most 3, tokens containing digits and stop words, rank the remaining tokens
by descending frequency with ties broken by first-occurrence order, keep at
most the top 5. -/
theorem C5_keywords (t : String)
    (hc : "constructor" ∉ filterTokens (splitWs (stripPunct (lowerStr t))))
    (hp : "__proto__" ∉ filterTokens (splitWs (stripPunct (lowerStr t)))) :
    extractKeywords (JsVal.jsStr t) = keywordsSpec t := by
  show (if t = "" then [] else keywordPipeline t) = keywordsSpec t
  by_cases ht : t = ""
  · subst ht
    rw [if_pos rfl]
    rfl
  · rw [if_neg ht]
    simp only [keywordPipeline, keywordsSpec]
    rw [wordCounts_eq _ hc hp]
    rw [show (firstOccurrences (filterTokens (splitWs (stripPunct (lowerStr t))))).map
          (fun w => (w, JsProp.num ((filterTokens (splitWs (stripPunct
            (lowerStr t)))).count w))) =
        ((firstOccurrences (filterTokens (splitWs (stripPunct (lowerStr t))))).map
          (fun w => (w, (filterTokens (splitWs (stripPunct (lowerStr t)))).count w))).map
          (fun q => (q.1, JsProp.num q.2)) from
        (List.map_map (fun q : String × Nat => (q.1, JsProp.num q.2))
          (fun w => (w, (filterTokens (splitWs (stripPunct (lowerStr t)))).count w))
          (firstOccurrences (filterTokens (splitWs (stripPunct
            (lowerStr t)))))).symm]
    rw [sortDesc_map, ← List.map_take, List.map_map]
    rfl

theorem C5_keywords_witness :
    extractKeywords (JsVal.jsStr "hello hello world") =
      keywordsSpec "hello hello world" :=
  C5_keywords "hello hello world" (by decide) (by decide)

theorem C10_distribution_sum_witness :
    (transformMLResults [recMixed] "job1" "now1").sentimentDistribution =
      ⟨0, 0, 0⟩ :=
  (C10_distribution_sum [recMixed] "job1" "now1").2.2 recMixed "mixed" rfl
    (by decide) (by decide)

end TextController
